import Mathlib

/-!
Verification development for the 2D container packing simulator
(`src/main.py`).

The repository's own code is the PySide6 GUI layer: reading the container
and load tables (`PackingViewer._get_container`,
`PackingViewer._get_items_for_packing`), assembling packing results
(`PackingViewer.run_packing`), and JSON persistence
(`PackingViewer.save_file_as`).  The placement computation itself is
delegated to the external `rectpack` library, whose code is not part of
the repository; following the specification, that engine is modelled here
from the spec's own algorithm description (best-short-side-fit over a
maximal-rectangles free set, single bin, no rotation).

Numeric dimensions are modelled by `ℚ` (the code works with Python
floats; the spec speaks of positive reals).  Python's `float(...)`
string parser is treated as a parameter `parse : String → Option ℚ` of
the table-reading functions, with a concrete model `pyFloat` for the
plain decimal strings the application uses.
-/

/-- RGBA colour quadruple, components in `[0,1]`, opaque to the engine. -/
abbrev Color : Type := ℚ × ℚ × ℚ × ℚ

/-- An item tuple `(width, height, name)` exactly as built by
`_get_items_for_packing` in `src/main.py`. -/
abbrev ItemData : Type := ℚ × ℚ × String

/-- Axis-aligned rectangle with origin `(x, y)`; mirrors the attributes
`rect.x, rect.y, rect.width, rect.height` that `run_packing` reads off a
packed rectangle. -/
structure Rect where
  x : ℚ
  y : ℚ
  width : ℚ
  height : ℚ
deriving DecidableEq, Repr

/-- The interiors of two rectangles intersect (strict inequalities, so
zero-area touching at shared edges does not count as overlap). -/
def rOverlap (a b : Rect) : Prop :=
  a.x < b.x + b.width ∧ b.x < a.x + a.width ∧
  a.y < b.y + b.height ∧ b.y < a.y + a.height

instance (a b : Rect) : Decidable (rOverlap a b) := by
  unfold rOverlap; infer_instance

/-- `rContains a b`: rectangle `b` lies entirely inside rectangle `a`
(touching edges allowed). -/
def rContains (a b : Rect) : Prop :=
  a.x ≤ b.x ∧ a.y ≤ b.y ∧
  b.x + b.width ≤ a.x + a.width ∧ b.y + b.height ≤ a.y + a.height

instance (a b : Rect) : Decidable (rContains a b) := by
  unfold rContains; infer_instance

/-- `subRect a b`: `a` lies entirely inside `b` (same as `rContains b a`,
kept directional for readability in the invariants). -/
def subRect (a b : Rect) : Prop :=
  b.x ≤ a.x ∧ b.y ≤ a.y ∧
  a.x + a.width ≤ b.x + b.width ∧ a.y + a.height ≤ b.y + b.height

/-- Open interior of a rectangle, as a set of points of the plane. -/
def rectInterior (r : Rect) : Set (ℚ × ℚ) :=
  { p | r.x < p.1 ∧ p.1 < r.x + r.width ∧ r.y < p.2 ∧ p.2 < r.y + r.height }

/-- Closed region covered by a rectangle, as a set of points. -/
def rectRegion (r : Rect) : Set (ℚ × ℚ) :=
  { p | r.x ≤ p.1 ∧ p.1 ≤ r.x + r.width ∧ r.y ≤ p.2 ∧ p.2 ≤ r.y + r.height }

/-- Modelled from the spec: best-short-side-fit scoring key of a free
rectangle for an item of size `(iw, ih)` — short-side slack, then
long-side slack, then the candidate's `y`, then its `x` (§4.3c).  The
`rectpack` engine the repository delegates to is not part of the source
tree, so the heuristic is taken from the specification. -/
def sKey (iw ih : ℚ) (f : Rect) : ℚ × ℚ × ℚ × ℚ :=
  (min (f.width - iw) (f.height - ih), max (f.width - iw) (f.height - ih), f.y, f.x)

/-- Strict lexicographic comparison of two scoring keys. -/
def keyLtB (a b : ℚ × ℚ × ℚ × ℚ) : Bool :=
  decide (a.1 < b.1) ||
    (decide (a.1 = b.1) &&
      (decide (a.2.1 < b.2.1) ||
        (decide (a.2.1 = b.2.1) &&
          (decide (a.2.2.1 < b.2.2.1) ||
            (decide (a.2.2.1 = b.2.2.1) && decide (a.2.2.2 < b.2.2.2))))))

/-- One comparison step of the candidate selection: keep the incumbent
unless the new candidate scores strictly better. -/
def pickBetter (iw ih : ℚ) (best : Option Rect) (c : Rect) : Option Rect :=
  match best with
  | none => some c
  | some b => if keyLtB (sKey iw ih c) (sKey iw ih b) then some c else some b

/-- Modelled from the spec: pick, among the candidate free rectangles,
the one with the lexicographically least scoring key; the first listed
candidate wins ties (§4.3c). -/
def chooseBest (iw ih : ℚ) (cands : List Rect) : Option Rect :=
  cands.foldl (pickBetter iw ih) none

/-- Modelled from the spec: processing order of items — area descending,
ties by the larger of width and height descending, then by original
input position (§4.3 step 1).  Items are `(rid, width, height)`. -/
def itemLe (a b : ℕ × ℚ × ℚ) : Bool :=
  decide (b.2.1 * b.2.2 < a.2.1 * a.2.2) ||
    (decide (a.2.1 * a.2.2 = b.2.1 * b.2.2) &&
      (decide (max b.2.1 b.2.2 < max a.2.1 a.2.2) ||
        (decide (max a.2.1 a.2.2 = max b.2.1 b.2.2) && decide (a.1 ≤ b.1))))

/-- Insert an item into an already-sorted list, before the first entry
it does not come after under `itemLe`. -/
def insertItem (a : ℕ × ℚ × ℚ) : List (ℕ × ℚ × ℚ) → List (ℕ × ℚ × ℚ)
  | [] => [a]
  | b :: r => if itemLe a b then a :: b :: r else b :: insertItem a r

/-- Modelled from the spec: sort the items into processing order (§4.3
step 1) by stable insertion sort; `itemLe` is total (the input-position
tie-break separates any two distinct entries), so the result is the
unique ordering the spec prescribes. -/
def sortItems : List (ℕ × ℚ × ℚ) → List (ℕ × ℚ × ℚ)
  | [] => []
  | a :: r => insertItem a (sortItems r)

/-- Modelled from the spec: replace a free rectangle `F` that overlaps
the placed footprint `used` by its (at most four) maximal remaining
parts — left, right, below, above — clipped to `F`'s own bounds,
discarding parts with non-positive width or height; a free rectangle not
overlapping the footprint is kept unchanged (§4.4). -/
def splitFree (used F : Rect) : List Rect :=
  if rOverlap F used then
    ([ Rect.mk F.x F.y (used.x - F.x) F.height,
       Rect.mk (used.x + used.width) F.y (F.x + F.width - (used.x + used.width)) F.height,
       Rect.mk F.x F.y F.width (used.y - F.y),
       Rect.mk F.x (used.y + used.height) F.width (F.y + F.height - (used.y + used.height))
     ]).filter (fun c => decide (0 < c.width ∧ 0 < c.height))
  else [F]

/-- Modelled from the spec: prune pass over the regenerated free set —
a rectangle is dropped when another rectangle of the set entirely
contains it; among duplicates the earliest copy is kept (§4.4). -/
def pruneGo : List Rect → List Rect → List Rect
  | _, [] => []
  | before, r :: after =>
      if (before.any fun q => decide (rContains q r)) ||
         (after.any fun q => decide (rContains q r) && !decide (rContains r q)) then
        pruneGo (before ++ [r]) after
      else
        r :: pruneGo (before ++ [r]) after

/-- Modelled from the spec: remove from the free set every rectangle
entirely contained in another rectangle of the set (§4.4). -/
def pruneFree (l : List Rect) : List Rect :=
  pruneGo [] l

/-- One placement recorded by the engine: the `rid` handed to
`add_rect` and the occupied rectangle. -/
structure Placement where
  rid : ℕ
  rect : Rect
deriving DecidableEq, Repr

/-- Engine working state: current free-rectangle set and the placements
made so far, in placement order. -/
structure EngineState where
  free : List Rect
  placed : List Placement
deriving DecidableEq, Repr

/-- Modelled from the spec: process one item — filter the free set for
candidates the item fits in (no rotation), reject the item when there is
none, otherwise place it at the chosen candidate's origin with the
item's own width and height and carve the footprint out of the free set
(§4.3 steps 2a–2e, §4.4). -/
def engineStep (st : EngineState) (a : ℕ × ℚ × ℚ) : EngineState :=
  let cands := st.free.filter fun f => decide (a.2.1 ≤ f.width ∧ a.2.2 ≤ f.height)
  match chooseBest a.2.1 a.2.2 cands with
  | none => st
  | some f =>
      let used : Rect := ⟨f.x, f.y, a.2.1, a.2.2⟩
      ⟨pruneFree ((st.free.map (splitFree used)).flatten),
       st.placed ++ [⟨a.1, used⟩]⟩

/-- Modelled from the spec: full engine run — sort the items into
processing order and fold the placement step over them, starting from a
free set holding exactly the full container (§4.2, §4.3).  This stands
in for `rectpack.newPacker()` / `add_bin` / `add_rect` / `pack`. -/
def engineRun (cw ch : ℚ) (rects : List (ℕ × ℚ × ℚ)) : EngineState :=
  (sortItems rects).foldl engineStep ⟨[⟨0, 0, cw, ch⟩], []⟩

/-- Placeholder entry used to make list indexing total; `run_packing`
only ever indexes with rids of rectangles it added, which is proved
separately. -/
def dummyEntry : ItemData × Color := ((0, 0, ""), (0, 0, 0, 0))

/-- The `for i, (item_data, color) in enumerate(packed_items): if i not
in packed_ids: unpacked_rects.append(...)` loop of `run_packing`
(src/main.py lines 479–481), with `i` the running index. -/
def collectUnpacked {α : Type} (ids : List ℕ) : ℕ → List α → List α
  | _, [] => []
  | i, x :: xs =>
      if i ∈ ids then collectUnpacked ids (i + 1) xs
      else x :: collectUnpacked ids (i + 1) xs

/-- The locals of `run_packing` that carry the packing outcome:
`packed_rects` pairs each placed rectangle with the originating
`(item_data, color)` looked up by rid, `unpacked_rects` lists the
entries whose rid was never placed, and `packed_ids` is the list of
placed rids in placement order. -/
structure PackOutput where
  packed_rects : List (Rect × ItemData × Color)
  unpacked_rects : List (ItemData × Color)
  packed_ids : List ℕ
deriving DecidableEq, Repr

/-- Embeds `PackingViewer.run_packing` (src/main.py lines 444–485):
each entry of `items_to_pack` is added to the packer as a rectangle with
`rid` equal to its position, the packer runs, and the results are split
into `packed_rects` (in the order the bin lists them, i.e. placement
order) and `unpacked_rects` (input order).  The drawing and dialog code
is presentation-only and not modelled; the container dimensions and item
list arrive exactly as produced by the table-reading helpers. -/
def run_packing (cw ch : ℚ) (items_to_pack : List (ItemData × Color)) : PackOutput :=
  let packed_items := items_to_pack
  let rects := items_to_pack.enum.map fun p => (p.1, p.2.1.1, p.2.1.2.1)
  let st := engineRun cw ch rects
  let packed_rects := st.placed.map fun pl => (pl.rect, packed_items.getD pl.rid dummyEntry)
  let packed_ids := st.placed.map fun pl => pl.rid
  let unpacked_rects := collectUnpacked packed_ids 0 packed_items
  ⟨packed_rects, unpacked_rects, packed_ids⟩

/-- Modelled from the spec: hard failure raised when a non-positive
dimension reaches the engine, identifying the container or the offending
item (§7, contract violation).  The repository's source delegates to the
external `rectpack` library, so the fail-fast behaviour required by the
spec is modelled here. -/
inductive PackError where
  | containerInvalid (width height : ℚ)
  | itemInvalid (idx : ℕ) (item : ItemData)
deriving DecidableEq, Repr

/-- Modelled from the spec: the core `pack` entry point (§6) — assert
the positivity preconditions, failing fast with an error identifying the
container or the first offending item, then run the packing
computation. -/
def pack (cw ch : ℚ) (items : List (ItemData × Color)) : Except PackError PackOutput :=
  if decide (cw ≤ 0 ∨ ch ≤ 0) then
    Except.error (PackError.containerInvalid cw ch)
  else
    match items.enum.find? (fun p => decide (p.2.1.1 ≤ 0 ∨ p.2.1.2.1 ≤ 0)) with
    | some p => Except.error (PackError.itemInvalid p.1 p.2.1)
    | none => Except.ok (run_packing cw ch items)

/-- What it means for a `pack` error to identify the offender: a
container error carries the container's own dimensions and one of them
is non-positive; an item error carries the index and data of an actual
input item with a non-positive dimension. -/
def errorIdentifies (cw ch : ℚ) (items : List (ItemData × Color)) : PackError → Prop
  | PackError.containerInvalid w h => w = cw ∧ h = ch ∧ (w ≤ 0 ∨ h ≤ 0)
  | PackError.itemInvalid i d =>
      (∃ col, items.get? i = some (d, col)) ∧ (d.1 ≤ 0 ∨ d.2.1 ≤ 0)

/-- The `text if cell and cell.text().strip() else default` pattern used
throughout the table readers: an absent cell or one whose text strips to
empty yields the default, otherwise the cell's original text. -/
def textOrDefault (cell : Option String) (d : String) : String :=
  match cell with
  | some t => if t.trim ≠ "" then t else d
  | none => d

/-- Embeds `PackingViewer._get_container` (src/main.py lines 505–523):
per-axis text defaults of `"10"` for absent or blank cells, then a
single `try: float(w); float(h)` whose failure resets BOTH axes to
`10.0`.  `parse` stands for Python's `float`. -/
def get_container (parse : String → Option ℚ)
    (name_item w_item h_item : Option String) : String × ℚ × ℚ :=
  let name := textOrDefault name_item "Container"
  let w_text := textOrDefault w_item "10"
  let h_text := textOrDefault h_item "10"
  match parse w_text, parse h_text with
  | some w, some h => (name, w, h)
  | _, _ => (name, 10, 10)

/-- One row of the load table, as the three text cells read by
`_get_items_for_packing` (the colour lives in the separate
`load_row_colours` dictionary). -/
structure CellRow where
  name : Option String
  w : Option String
  h : Option String
deriving DecidableEq, Repr

/-- Embeds one iteration of the `_get_items_for_packing` row loop
(src/main.py lines 528–549): per-axis text defaults of `"1"`, a single
`try: float(w); float(h)` whose failure resets BOTH axes to `1.0`, the
colour looked up in `load_row_colours` with default
`(0.5, 0.5, 0.5, 0.8)`, and the name defaulting to `"Load {row+1}"`
when the cell is absent or blank. -/
def get_item_row (parse : String → Option ℚ) (colours : ℕ → Option Color)
    (row : ℕ) (r : CellRow) : ItemData × Color :=
  let w_text := textOrDefault r.w "1"
  let h_text := textOrDefault r.h "1"
  let wh : ℚ × ℚ :=
    match parse w_text, parse h_text with
    | some w, some h => (w, h)
    | _, _ => (1, 1)
  let item_color := (colours row).getD (1/2, 1/2, 1/2, 4/5)
  let name := textOrDefault r.name ("Load " ++ toString (row + 1))
  ((wh.1, wh.2, name), item_color)

/-- Embeds `PackingViewer._get_items_for_packing` (src/main.py lines
525–551): the row loop over the load table. -/
def get_items_for_packing (parse : String → Option ℚ) (colours : ℕ → Option Color)
    (rows : List CellRow) : List (ItemData × Color) :=
  rows.enum.map fun p => get_item_row parse colours p.1 p.2

/-- Numeric value of a list of decimal digit characters. -/
def digitsToNat (cs : List Char) : ℕ :=
  cs.foldl (fun n c => 10 * n + (c.toNat - '0'.toNat)) 0

/-- Model of Python's `float(...)` string parser on the plain decimal
strings this application works with: optional surrounding whitespace,
optional sign, digits with an optional fractional part (at least one
digit overall).  Exponents, `inf`/`nan` and digit underscores are out of
scope and rejected; every string the claims exercise is covered. -/
def pyFloat (s : String) : Option ℚ :=
  let cs := s.trim.toList
  let signed : ℚ × List Char :=
    match cs with
    | '-' :: r => (-1, r)
    | '+' :: r => (1, r)
    | _ => (1, cs)
  let intDigits := signed.2.takeWhile Char.isDigit
  let rest := signed.2.dropWhile Char.isDigit
  match rest with
  | [] =>
      if intDigits.isEmpty then none
      else some (signed.1 * (digitsToNat intDigits : ℚ))
  | '.' :: rest2 =>
      let fracDigits := rest2.takeWhile Char.isDigit
      let rest3 := rest2.dropWhile Char.isDigit
      if rest3.isEmpty && !(intDigits.isEmpty && fracDigits.isEmpty) then
        some (signed.1 *
          ((digitsToNat intDigits : ℚ) +
            (digitsToNat fracDigits : ℚ) / (10 : ℚ) ^ fracDigits.length))
      else none
  | _ => none

/-- One row of the load table as seen by `save_file_as`: the three text
cells plus the colour column, where `colorWidget = none` means
`cellWidget(row, 3)` returned no widget, `some none` means the widget
holds no `QPushButton`, and `some (some c)` means a button whose
`item_color` property is `c`. -/
structure SaveRow where
  name : Option String
  w : Option String
  h : Option String
  colorWidget : Option (Option Color)
deriving DecidableEq, Repr

/-- One entry of the persisted `loads` list. -/
structure LoadData where
  name : String
  width : String
  height : String
  color : Color
deriving DecidableEq, Repr

/-- The row loop of `PackingViewer.save_file_as` (src/main.py lines
371–381).  The accumulator mirrors the Python local `color_button`,
which is only assigned inside `if button_container is not None:` — so a
row with no colour cell widget reads whatever the variable held from an
earlier row, and raises `NameError` when it was never assigned.  `none`
= unbound, `some none` = bound to `None` (no button found), `some (some
c)` = bound to a button with colour `c`. -/
def save_loads_go : Option (Option Color) → List SaveRow → Except String (List LoadData)
  | _, [] => Except.ok []
  | last, r :: rs =>
      let color_button : Option (Option Color) :=
        match r.colorWidget with
        | some b => some b
        | none => last
      match color_button with
      | none => Except.error "NameError: name color_button is not defined"
      | some b =>
          let entry : LoadData :=
            ⟨r.name.getD "", r.w.getD "1", r.h.getD "1",
             match b with
             | some c => c
             | none => (1/2, 1/2, 1/2, 4/5)⟩
          match save_loads_go (some b) rs with
          | Except.ok l => Except.ok (entry :: l)
          | Except.error e => Except.error e

/-- Embeds the loads section of `PackingViewer.save_file_as`
(src/main.py lines 371–381): the collected `data["loads"]` list, or the
uncaught exception that aborts the save. -/
def save_loads (rows : List SaveRow) : Except String (List LoadData) :=
  save_loads_go none rows

/-- Engine invariant: every free rectangle and every placed rectangle
lies inside the container, no free rectangle meets the interior of a
placed one, and distinct placed rectangles have disjoint interiors. -/
def EngInv (cw ch : ℚ) (st : EngineState) : Prop :=
  (∀ f ∈ st.free, subRect f ⟨0, 0, cw, ch⟩) ∧
  (∀ p ∈ st.placed, subRect p.rect ⟨0, 0, cw, ch⟩) ∧
  (∀ f ∈ st.free, ∀ p ∈ st.placed, ¬ rOverlap f p.rect) ∧
  st.placed.Pairwise fun p q => ¬ rOverlap p.rect q.rect

/-- Two-item example list: a small item first, a larger one second, so
the area-descending heuristic places them out of input order. -/
def exTwoItems : List (ItemData × Color) :=
  [((1, 1, "a"), (0, 0, 0, 0)), ((2, 2, "b"), (0, 0, 0, 0))]

/-- One-item example list used to exercise the packing run. -/
def exOneItem : List (ItemData × Color) :=
  [((2, 3, "a"), (0, 0, 0, 0))]

/-- Example item with a non-positive width, for the precondition check. -/
def exBadItems : List (ItemData × Color) :=
  [((0, 1, "bad"), (0, 0, 0, 0))]

/-- Save-table example row: colour cell widget present, with a button
coloured `(0.1, 0.2, 0.3, 0.4)`. -/
def exRowWithButton : SaveRow :=
  ⟨some "a", some "2", some "3", some (some (1/10, 1/5, 3/10, 2/5))⟩

/-- Save-table example row: no colour cell widget at all. -/
def exRowNoWidget : SaveRow :=
  ⟨none, none, some "4", none⟩

theorem subRect_refl (a : Rect) : subRect a a :=
  ⟨le_refl _, le_refl _, le_refl _, le_refl _⟩

theorem subRect_trans {a b c : Rect} (h1 : subRect a b) (h2 : subRect b c) :
    subRect a c := by
  obtain ⟨h11, h12, h13, h14⟩ := h1
  obtain ⟨h21, h22, h23, h24⟩ := h2
  exact ⟨by linarith, by linarith, by linarith, by linarith⟩

theorem rOverlap_symm {a b : Rect} (h : rOverlap a b) : rOverlap b a := by
  obtain ⟨h1, h2, h3, h4⟩ := h
  exact ⟨h2, h1, h4, h3⟩

theorem rOverlap_mono {a f p : Rect} (hsub : subRect a f) (h : rOverlap a p) :
    rOverlap f p := by
  obtain ⟨hs1, hs2, hs3, hs4⟩ := hsub
  obtain ⟨h1, h2, h3, h4⟩ := h
  exact ⟨by linarith, by linarith, by linarith, by linarith⟩

theorem not_rOverlap_of_subRect {a f p : Rect} (hsub : subRect a f)
    (h : ¬ rOverlap f p) : ¬ rOverlap a p :=
  fun hh => h (rOverlap_mono hsub hh)

theorem rectInterior_disjoint {a b : Rect} (h : ¬ rOverlap a b) :
    rectInterior a ∩ rectInterior b = ∅ := by
  rw [Set.eq_empty_iff_forall_not_mem]
  rintro p ⟨⟨ha1, ha2, ha3, ha4⟩, ⟨hb1, hb2, hb3, hb4⟩⟩
  exact h ⟨by linarith, by linarith, by linarith, by linarith⟩

theorem pickBetter_cases (iw ih : ℚ) (best : Option Rect) (c : Rect) :
    pickBetter iw ih best c = some c ∨ pickBetter iw ih best c = best := by
  cases best with
  | none => exact Or.inl rfl
  | some b =>
    by_cases h : keyLtB (sKey iw ih c) (sKey iw ih b) = true
    · exact Or.inl (by simp [pickBetter, h])
    · exact Or.inr (by simp [pickBetter, h])

theorem foldl_pickBetter_mem {iw ih : ℚ} :
    ∀ (l : List Rect) (acc : Option Rect) (f : Rect),
      l.foldl (pickBetter iw ih) acc = some f → f ∈ l ∨ acc = some f := by
  intro l
  induction l with
  | nil => intro acc f h; exact Or.inr h
  | cons c xs ih2 =>
    intro acc f h
    rw [List.foldl_cons] at h
    rcases ih2 (pickBetter iw ih acc c) f h with hmem | hacc
    · exact Or.inl (List.mem_cons_of_mem _ hmem)
    · rcases pickBetter_cases iw ih acc c with he | he
      · rw [he] at hacc
        obtain rfl : c = f := Option.some.inj hacc
        exact Or.inl (List.mem_cons_self _ _)
      · exact Or.inr (he ▸ hacc)

theorem chooseBest_mem {iw ih : ℚ} {l : List Rect} {f : Rect}
    (h : chooseBest iw ih l = some f) : f ∈ l := by
  rcases foldl_pickBetter_mem l none f h with hm | hnone
  · exact hm
  · exact absurd hnone (by simp)

theorem splitFree_mem {used F r : Rect} (h : r ∈ splitFree used F) :
    subRect r F ∧ ¬ rOverlap r used := by
  unfold splitFree at h
  by_cases hov : rOverlap F used
  · rw [if_pos hov] at h
    obtain ⟨ho1, ho2, ho3, ho4⟩ := hov
    rw [List.mem_filter] at h
    obtain ⟨hmem, hpos⟩ := h
    rw [decide_eq_true_eq] at hpos
    simp only [List.mem_cons, List.not_mem_nil, or_false] at hmem
    rcases hmem with rfl | rfl | rfl | rfl
    · refine ⟨⟨le_refl _, le_refl _, ?_, le_refl _⟩, ?_⟩
      · show F.x + (used.x - F.x) ≤ F.x + F.width
        linarith
      · rintro ⟨hc1, hc2, hc3, hc4⟩
        have hb : used.x < F.x + (used.x - F.x) := hc2
        linarith
    · refine ⟨⟨?_, le_refl _, ?_, le_refl _⟩, ?_⟩
      · show F.x ≤ used.x + used.width
        linarith
      · show used.x + used.width + (F.x + F.width - (used.x + used.width)) ≤ F.x + F.width
        linarith
      · rintro ⟨hc1, hc2, hc3, hc4⟩
        have hb : used.x + used.width < used.x + used.width := hc1
        exact absurd hb (lt_irrefl _)
    · refine ⟨⟨le_refl _, le_refl _, le_refl _, ?_⟩, ?_⟩
      · show F.y + (used.y - F.y) ≤ F.y + F.height
        linarith
      · rintro ⟨hc1, hc2, hc3, hc4⟩
        have hb : used.y < F.y + (used.y - F.y) := hc4
        linarith
    · refine ⟨⟨le_refl _, ?_, le_refl _, ?_⟩, ?_⟩
      · show F.y ≤ used.y + used.height
        linarith
      · show used.y + used.height + (F.y + F.height - (used.y + used.height)) ≤ F.y + F.height
        linarith
      · rintro ⟨hc1, hc2, hc3, hc4⟩
        have hb : used.y + used.height < used.y + used.height := hc3
        exact absurd hb (lt_irrefl _)
  · rw [if_neg hov] at h
    simp only [List.mem_singleton] at h
    subst h
    exact ⟨subRect_refl _, hov⟩

theorem pruneGo_subset : ∀ (before l : List Rect) (r : Rect),
    r ∈ pruneGo before l → r ∈ l := by
  intro before l
  induction l generalizing before with
  | nil => intro r hr; simp [pruneGo] at hr
  | cons x xs ih =>
    intro r hr
    unfold pruneGo at hr
    split at hr
    · exact List.mem_cons_of_mem _ (ih _ r hr)
    · rcases List.mem_cons.mp hr with rfl | hr2
      · exact List.mem_cons_self _ _
      · exact List.mem_cons_of_mem _ (ih _ r hr2)

theorem pruneFree_subset {l : List Rect} {r : Rect} (h : r ∈ pruneFree l) :
    r ∈ l :=
  pruneGo_subset [] l r h

theorem engineStep_eq_none {st : EngineState} {a : ℕ × ℚ × ℚ}
    (h : chooseBest a.2.1 a.2.2
      (st.free.filter fun f => decide (a.2.1 ≤ f.width ∧ a.2.2 ≤ f.height)) = none) :
    engineStep st a = st := by
  simp only [engineStep]
  rw [h]

theorem engineStep_eq_some {st : EngineState} {a : ℕ × ℚ × ℚ} {f : Rect}
    (h : chooseBest a.2.1 a.2.2
      (st.free.filter fun g => decide (a.2.1 ≤ g.width ∧ a.2.2 ≤ g.height)) = some f) :
    engineStep st a =
      ⟨pruneFree ((st.free.map (splitFree ⟨f.x, f.y, a.2.1, a.2.2⟩)).flatten),
       st.placed ++ [⟨a.1, ⟨f.x, f.y, a.2.1, a.2.2⟩⟩]⟩ := by
  simp only [engineStep]
  rw [h]

theorem engineStep_inv {cw ch : ℚ} {st : EngineState} (h : EngInv cw ch st)
    (a : ℕ × ℚ × ℚ) : EngInv cw ch (engineStep st a) := by
  obtain ⟨hfree, hplaced, hdisj, hpair⟩ := h
  cases hcb : chooseBest a.2.1 a.2.2
      (st.free.filter fun g => decide (a.2.1 ≤ g.width ∧ a.2.2 ≤ g.height)) with
  | none =>
    rw [engineStep_eq_none hcb]
    exact ⟨hfree, hplaced, hdisj, hpair⟩
  | some f =>
    rw [engineStep_eq_some hcb]
    have hfc := chooseBest_mem hcb
    have hffree : f ∈ st.free := (List.mem_filter.mp hfc).1
    have hfits : a.2.1 ≤ f.width ∧ a.2.2 ≤ f.height :=
      of_decide_eq_true (List.mem_filter.mp hfc).2
    have husedsub : subRect ⟨f.x, f.y, a.2.1, a.2.2⟩ f := by
      refine ⟨le_refl _, le_refl _, ?_, ?_⟩
      · show f.x + a.2.1 ≤ f.x + f.width
        linarith [hfits.1]
      · show f.y + a.2.2 ≤ f.y + f.height
        linarith [hfits.2]
    have hnewfree :
        ∀ r ∈ pruneFree ((st.free.map (splitFree ⟨f.x, f.y, a.2.1, a.2.2⟩)).flatten),
          ∃ F ∈ st.free, subRect r F ∧ ¬ rOverlap r ⟨f.x, f.y, a.2.1, a.2.2⟩ := by
      intro r hr
      have hr2 := pruneFree_subset hr
      rw [List.mem_flatten] at hr2
      obtain ⟨l, hl, hrl⟩ := hr2
      rw [List.mem_map] at hl
      obtain ⟨F, hF, rfl⟩ := hl
      exact ⟨F, hF, splitFree_mem hrl⟩
    refine ⟨?_, ?_, ?_, ?_⟩
    · intro r hr
      obtain ⟨F, hF, hs, _⟩ := hnewfree r hr
      exact subRect_trans hs (hfree F hF)
    · intro p hp
      rcases List.mem_append.mp hp with hp1 | hp2
      · exact hplaced p hp1
      · simp only [List.mem_singleton] at hp2
        subst hp2
        exact subRect_trans husedsub (hfree f hffree)
    · intro r hr p hp
      obtain ⟨F, hF, hs, hdu⟩ := hnewfree r hr
      rcases List.mem_append.mp hp with hp1 | hp2
      · exact not_rOverlap_of_subRect hs (hdisj F hF p hp1)
      · simp only [List.mem_singleton] at hp2
        subst hp2
        exact hdu
    · rw [List.pairwise_append]
      refine ⟨hpair, List.pairwise_singleton _ _, ?_⟩
      intro p hp q hq
      simp only [List.mem_singleton] at hq
      subst hq
      intro hov
      exact hdisj f hffree p hp (rOverlap_mono husedsub (rOverlap_symm hov))

theorem foldl_engineStep_inv (P : EngineState → Prop) (R : ℕ × ℚ × ℚ → Prop)
    (hstep : ∀ st a, R a → P st → P (engineStep st a)) :
    ∀ (l : List (ℕ × ℚ × ℚ)) (st : EngineState),
      (∀ a ∈ l, R a) → P st → P (l.foldl engineStep st) := by
  intro l
  induction l with
  | nil => intro st _ hP; exact hP
  | cons a xs ih =>
    intro st hR hP
    rw [List.foldl_cons]
    exact ih _ (fun b hb => hR b (List.mem_cons_of_mem _ hb))
      (hstep st a (hR a (List.mem_cons_self _ _)) hP)

theorem engInv_init (cw ch : ℚ) : EngInv cw ch ⟨[⟨0, 0, cw, ch⟩], []⟩ := by
  refine ⟨?_, ?_, ?_, List.Pairwise.nil⟩
  · intro f hf
    simp only [List.mem_singleton] at hf
    subst hf
    exact subRect_refl _
  · intro p hp
    simp at hp
  · intro f hf p hp
    simp at hp

theorem engineRun_inv (cw ch : ℚ) (rects : List (ℕ × ℚ × ℚ)) :
    EngInv cw ch (engineRun cw ch rects) := by
  unfold engineRun
  exact foldl_engineStep_inv (EngInv cw ch) (fun _ => True)
    (fun st a _ hP => engineStep_inv hP a) (sortItems rects) _
    (fun _ _ => trivial) (engInv_init cw ch)

theorem run_packing_def (cw ch : ℚ) (items : List (ItemData × Color)) :
    run_packing cw ch items =
      ⟨(engineRun cw ch (items.enum.map fun p => (p.1, p.2.1.1, p.2.1.2.1))).placed.map
          (fun pl => (pl.rect, items.getD pl.rid dummyEntry)),
       collectUnpacked
         ((engineRun cw ch (items.enum.map fun p => (p.1, p.2.1.1, p.2.1.2.1))).placed.map
           (fun pl => pl.rid)) 0 items,
       (engineRun cw ch (items.enum.map fun p => (p.1, p.2.1.1, p.2.1.2.1))).placed.map
         (fun pl => pl.rid)⟩ :=
  rfl

theorem foldl_placed_rids :
    ∀ (l : List (ℕ × ℚ × ℚ)) (st : EngineState),
      ∃ t, ((l.foldl engineStep st).placed).map Placement.rid =
          st.placed.map Placement.rid ++ t ∧ t.Sublist (l.map Prod.fst) := by
  intro l
  induction l with
  | nil => intro st; exact ⟨[], by simp, by simp⟩
  | cons a xs ih =>
    intro st
    rw [List.foldl_cons]
    cases hcb : chooseBest a.2.1 a.2.2
        (st.free.filter fun g => decide (a.2.1 ≤ g.width ∧ a.2.2 ≤ g.height)) with
    | none =>
      rw [engineStep_eq_none hcb]
      obtain ⟨t, ht, hs⟩ := ih st
      refine ⟨t, ht, ?_⟩
      rw [List.map_cons]
      exact hs.cons _
    | some f =>
      rw [engineStep_eq_some hcb]
      obtain ⟨t, ht, hs⟩ :=
        ih ⟨pruneFree ((st.free.map (splitFree ⟨f.x, f.y, a.2.1, a.2.2⟩)).flatten),
            st.placed ++ [⟨a.1, ⟨f.x, f.y, a.2.1, a.2.2⟩⟩]⟩
      refine ⟨a.1 :: t, ?_, ?_⟩
      · rw [ht]
        simp [List.map_append]
      · rw [List.map_cons]
        exact hs.cons₂ _

theorem collectUnpacked_congr {α : Type} (ids ids2 : List ℕ) :
    ∀ (l : List α) (i : ℕ), (∀ j, i ≤ j → (j ∈ ids ↔ j ∈ ids2)) →
      collectUnpacked ids i l = collectUnpacked ids2 i l := by
  intro l
  induction l with
  | nil => intro i _; rfl
  | cons x xs ih =>
    intro i h
    have hmem := h i (le_refl i)
    simp only [collectUnpacked]
    by_cases hi : i ∈ ids
    · rw [if_pos hi, if_pos (hmem.mp hi),
        ih (i + 1) (fun j hj => h j (le_trans (Nat.le_succ i) hj))]
    · rw [if_neg hi, if_neg (fun hh => hi (hmem.mpr hh)),
        ih (i + 1) (fun j hj => h j (le_trans (Nat.le_succ i) hj))]

theorem collectUnpacked_sublist {α : Type} (ids : List ℕ) :
    ∀ (l : List α) (i : ℕ), (collectUnpacked ids i l).Sublist l := by
  intro l
  induction l with
  | nil => intro i; exact List.nil_sublist _
  | cons x xs ih =>
    intro i
    simp only [collectUnpacked]
    by_cases hi : i ∈ ids
    · rw [if_pos hi]; exact (ih (i + 1)).cons _
    · rw [if_neg hi]; exact (ih (i + 1)).cons₂ _

theorem collectUnpacked_perm {α : Type} (d : α) :
    ∀ (l : List α) (i : ℕ) (ids : List ℕ), ids.Nodup →
      (∀ j ∈ ids, i ≤ j ∧ j < i + l.length) →
      ((ids.map fun j => l.getD (j - i) d) ++ collectUnpacked ids i l).Perm l := by
  intro l
  induction l with
  | nil =>
    intro i ids hnd hb
    have hids : ids = [] := List.eq_nil_iff_forall_not_mem.mpr fun j hj => by
      have hj2 := hb j hj
      simp at hj2
      omega
    subst hids
    simp [collectUnpacked]
  | cons x xs ih =>
    intro i ids hnd hb
    by_cases hi : i ∈ ids
    · have hperm := List.perm_cons_erase hi
      have hbound : ∀ j ∈ ids.erase i, i + 1 ≤ j ∧ j < (i + 1) + xs.length := by
        intro j hj
        have hj2 := (List.Nodup.mem_erase_iff hnd).mp hj
        have hjb := hb j hj2.2
        have hne : i ≠ j := fun he => hj2.1 he.symm
        simp [List.length_cons] at hjb
        omega
      have hshift : ∀ j ∈ ids.erase i,
          (x :: xs).getD (j - i) d = xs.getD (j - (i + 1)) d := by
        intro j hj
        have hj2 := (List.Nodup.mem_erase_iff hnd).mp hj
        have hjb := hb j hj2.2
        have hlt : i < j := lt_of_le_of_ne hjb.1 (fun he => hj2.1 he.symm)
        have he : j - i = (j - (i + 1)) + 1 := by omega
        rw [he, List.getD_cons_succ]
      have hcng : collectUnpacked ids (i + 1) xs
          = collectUnpacked (ids.erase i) (i + 1) xs :=
        collectUnpacked_congr ids (ids.erase i) xs (i + 1) fun j hj => by
          rw [List.Nodup.mem_erase_iff hnd]
          constructor
          · intro hmem
            exact ⟨by omega, hmem⟩
          · intro hmem
            exact hmem.2
      have hmapeq : ((i :: ids.erase i).map fun j => (x :: xs).getD (j - i) d)
          = x :: ((ids.erase i).map fun j => xs.getD (j - (i + 1)) d) := by
        rw [List.map_cons, List.map_congr_left hshift]
        congr 1
        rw [Nat.sub_self]
        exact List.getD_cons_zero
      have hC : collectUnpacked ids i (x :: xs)
          = collectUnpacked (ids.erase i) (i + 1) xs := by
        simp only [collectUnpacked, if_pos hi]
        exact hcng
      rw [hC]
      refine List.Perm.trans (List.Perm.append_right _ (hperm.map _)) ?_
      rw [hmapeq, List.cons_append]
      exact (ih (i + 1) (ids.erase i) (List.Nodup.erase _ hnd) hbound).cons x
    · have hshift2 : ∀ j ∈ ids,
          (x :: xs).getD (j - i) d = xs.getD (j - (i + 1)) d := by
        intro j hj
        have hjb := hb j hj
        have hne : j ≠ i := fun h => hi (h ▸ hj)
        have he : j - i = (j - (i + 1)) + 1 := by omega
        rw [he, List.getD_cons_succ]
      have hbound2 : ∀ j ∈ ids, i + 1 ≤ j ∧ j < (i + 1) + xs.length := by
        intro j hj
        have hjb := hb j hj
        have hne : j ≠ i := fun h => hi (h ▸ hj)
        simp [List.length_cons] at hjb
        omega
      simp only [collectUnpacked, if_neg hi]
      refine List.Perm.trans List.perm_middle ?_
      rw [List.map_congr_left hshift2]
      exact (ih (i + 1) ids hnd hbound2).cons x

theorem enum_mem_get? {α : Type} {l : List α} {p : ℕ × α} (h : p ∈ l.enum) :
    l.get? p.1 = some p.2 := by
  rw [List.get?_eq_getElem?]
  exact List.mem_enum_iff_getElem?.mp h

theorem getD_of_get? {α : Type} {l : List α} {i : ℕ} {x : α} (d : α)
    (h : l.get? i = some x) : l.getD i d = x := by
  rw [List.getD_eq_getElem?_getD, ← List.get?_eq_getElem?, h]
  rfl

theorem rects_map_fst (items : List (ItemData × Color)) :
    ((items.enum.map fun p => (p.1, p.2.1.1, p.2.1.2.1)).map Prod.fst)
      = List.range items.length := by
  rw [List.map_map]
  have hcomp : (Prod.fst ∘ fun p : ℕ × (ItemData × Color) => (p.1, p.2.1.1, p.2.1.2.1))
      = Prod.fst := rfl
  rw [hcomp, List.enum_map_fst]

theorem insertItem_perm (a : ℕ × ℚ × ℚ) :
    ∀ l : List (ℕ × ℚ × ℚ), (insertItem a l).Perm (a :: l) := by
  intro l
  induction l with
  | nil => exact List.Perm.refl _
  | cons b r ih =>
    simp only [insertItem]
    by_cases h : itemLe a b = true
    · rw [if_pos h]
    · rw [if_neg h]
      exact List.Perm.trans (ih.cons b) (List.Perm.swap a b r)

theorem sortItems_perm : ∀ l : List (ℕ × ℚ × ℚ), (sortItems l).Perm l := by
  intro l
  induction l with
  | nil => exact List.Perm.refl _
  | cons a r ih =>
    simp only [sortItems]
    exact List.Perm.trans (insertItem_perm a (sortItems r)) (ih.cons a)

theorem sortItems_fst_perm (rects : List (ℕ × ℚ × ℚ)) :
    ((sortItems rects).map Prod.fst).Perm (rects.map Prod.fst) :=
  (sortItems_perm rects).map _

theorem engineRun_rids (cw ch : ℚ) (rects : List (ℕ × ℚ × ℚ))
    (hnd : (rects.map Prod.fst).Nodup) :
    ((engineRun cw ch rects).placed.map Placement.rid).Nodup ∧
      ∀ i ∈ (engineRun cw ch rects).placed.map Placement.rid,
        i ∈ rects.map Prod.fst := by
  obtain ⟨t, ht, hs⟩ := foldl_placed_rids (sortItems rects) ⟨[⟨0, 0, cw, ch⟩], []⟩
  have hrun : (engineRun cw ch rects).placed.map Placement.rid = t := by
    unfold engineRun
    simpa using ht
  rw [hrun]
  have hperm := sortItems_fst_perm rects
  constructor
  · exact hs.nodup (hperm.symm.nodup hnd)
  · intro i hi
    exact hperm.mem_iff.mp (hs.subset hi)

theorem run_packing_packed_rects (cw ch : ℚ) (items : List (ItemData × Color)) :
    (run_packing cw ch items).packed_rects =
      (engineRun cw ch (items.enum.map fun p => (p.1, p.2.1.1, p.2.1.2.1))).placed.map
        (fun pl => (pl.rect, items.getD pl.rid dummyEntry)) :=
  rfl

theorem run_packing_packed_ids (cw ch : ℚ) (items : List (ItemData × Color)) :
    (run_packing cw ch items).packed_ids =
      (engineRun cw ch (items.enum.map fun p => (p.1, p.2.1.1, p.2.1.2.1))).placed.map
        (fun pl => pl.rid) :=
  rfl

theorem run_packing_unpacked_rects (cw ch : ℚ) (items : List (ItemData × Color)) :
    (run_packing cw ch items).unpacked_rects =
      collectUnpacked
        ((engineRun cw ch (items.enum.map fun p => (p.1, p.2.1.1, p.2.1.2.1))).placed.map
          (fun pl => pl.rid)) 0 items :=
  rfl

theorem run_packing_ids_spec (cw ch : ℚ) (items : List (ItemData × Color)) :
    (run_packing cw ch items).packed_ids.Nodup ∧
      ∀ i ∈ (run_packing cw ch items).packed_ids, i < items.length := by
  have hnd : ((items.enum.map fun p => (p.1, p.2.1.1, p.2.1.2.1)).map Prod.fst).Nodup := by
    rw [rects_map_fst]
    exact List.nodup_range _
  obtain ⟨h1, h2⟩ := engineRun_rids cw ch _ hnd
  rw [run_packing_packed_ids]
  constructor
  · exact h1
  · intro i hi
    have hmem := h2 i hi
    rw [rects_map_fst] at hmem
    exact List.mem_range.mp hmem

theorem engineRun_dims (cw ch : ℚ) (items : List (ItemData × Color)) :
    ∀ pl ∈ (engineRun cw ch (items.enum.map fun p => (p.1, p.2.1.1, p.2.1.2.1))).placed,
      ∃ pc : ItemData × Color, items.get? pl.rid = some pc ∧
        pl.rect.width = pc.1.1 ∧ pl.rect.height = pc.1.2.1 := by
  unfold engineRun
  refine foldl_engineStep_inv
    (fun st => ∀ pl ∈ st.placed, ∃ pc : ItemData × Color,
      items.get? pl.rid = some pc ∧ pl.rect.width = pc.1.1 ∧ pl.rect.height = pc.1.2.1)
    (fun a => ∃ pc : ItemData × Color,
      items.get? a.1 = some pc ∧ a.2.1 = pc.1.1 ∧ a.2.2 = pc.1.2.1)
    ?_ _ _ ?_ ?_
  · intro st a hR hP
    cases hcb : chooseBest a.2.1 a.2.2
        (st.free.filter fun g => decide (a.2.1 ≤ g.width ∧ a.2.2 ≤ g.height)) with
    | none =>
      rw [engineStep_eq_none hcb]
      exact hP
    | some f =>
      rw [engineStep_eq_some hcb]
      intro pl hpl
      rcases List.mem_append.mp hpl with h1 | h2
      · exact hP pl h1
      · simp only [List.mem_singleton] at h2
        subst h2
        obtain ⟨pc, hg, hw, hh⟩ := hR
        exact ⟨pc, hg, hw, hh⟩
  · intro a ha
    have ha2 : a ∈ items.enum.map fun p => (p.1, p.2.1.1, p.2.1.2.1) :=
      (sortItems_perm _).mem_iff.mp ha
    rw [List.mem_map] at ha2
    obtain ⟨p, hp, rfl⟩ := ha2
    exact ⟨p.2, enum_mem_get? hp, rfl, rfl⟩
  · intro pl hpl
    simp at hpl

/-- C1: in the result of a packing run, the rectangles of any two
distinct placed items have disjoint interiors — zero-area touching at
shared edges is allowed, since interiors are open. -/
theorem c1_no_overlap (cw ch : ℚ) (items : List (ItemData × Color)) :
    (run_packing cw ch items).packed_rects.Pairwise
      (fun a b => rectInterior a.1 ∩ rectInterior b.1 = ∅) := by
  have hinv := engineRun_inv cw ch (items.enum.map fun p => (p.1, p.2.1.1, p.2.1.2.1))
  have hpair := hinv.2.2.2
  rw [run_packing_packed_rects, List.pairwise_map]
  exact hpair.imp fun h => rectInterior_disjoint h

/-- C2: every placed rectangle lies entirely within the container
region `[0, W] × [0, H]`, stated both through the corner coordinates and
as inclusion of point sets. -/
theorem c2_containment (cw ch : ℚ) (items : List (ItemData × Color)) :
    ∀ e ∈ (run_packing cw ch items).packed_rects,
      0 ≤ e.1.x ∧ 0 ≤ e.1.y ∧ e.1.x + e.1.width ≤ cw ∧ e.1.y + e.1.height ≤ ch ∧
        rectRegion e.1 ⊆ rectRegion ⟨0, 0, cw, ch⟩ := by
  intro e he
  rw [run_packing_packed_rects, List.mem_map] at he
  obtain ⟨pl, hpl, rfl⟩ := he
  have hinv := engineRun_inv cw ch (items.enum.map fun p => (p.1, p.2.1.1, p.2.1.2.1))
  obtain ⟨h1, h2, h3, h4⟩ := hinv.2.1 pl hpl
  have b1 : (0 : ℚ) ≤ pl.rect.x := h1
  have b2 : (0 : ℚ) ≤ pl.rect.y := h2
  have b3 : pl.rect.x + pl.rect.width ≤ 0 + cw := h3
  have b4 : pl.rect.y + pl.rect.height ≤ 0 + ch := h4
  refine ⟨b1, b2, by linarith, by linarith, ?_⟩
  show rectRegion pl.rect ⊆ rectRegion ⟨0, 0, cw, ch⟩
  rintro q ⟨hq1, hq2, hq3, hq4⟩
  refine ⟨?_, ?_, ?_, ?_⟩
  · show (0 : ℚ) ≤ q.1
    linarith
  · show q.1 ≤ 0 + cw
    linarith
  · show (0 : ℚ) ≤ q.2
    linarith
  · show q.2 ≤ 0 + ch
    linarith

/-- C3: the placed and unpacked sequences partition the input — their
lengths sum to the input length, together they are a permutation of the
input entries, and the placed rids are distinct valid input positions. -/
theorem c3_partition (cw ch : ℚ) (items : List (ItemData × Color)) :
    (run_packing cw ch items).packed_rects.length
        + (run_packing cw ch items).unpacked_rects.length = items.length ∧
      (((run_packing cw ch items).packed_rects.map fun e => e.2)
        ++ (run_packing cw ch items).unpacked_rects).Perm items ∧
      (run_packing cw ch items).packed_ids.Nodup ∧
      ∀ i ∈ (run_packing cw ch items).packed_ids, i < items.length := by
  obtain ⟨hnd, hbnd⟩ := run_packing_ids_spec cw ch items
  have hperm : (((run_packing cw ch items).packed_rects.map fun e => e.2)
      ++ (run_packing cw ch items).unpacked_rects).Perm items := by
    have hmain := collectUnpacked_perm dummyEntry items 0
      (run_packing cw ch items).packed_ids hnd
      (fun j hj => ⟨Nat.zero_le j, by simpa using hbnd j hj⟩)
    have heq : ((run_packing cw ch items).packed_rects.map fun e => e.2)
        = (run_packing cw ch items).packed_ids.map
            fun j => items.getD (j - 0) dummyEntry := by
      rw [run_packing_packed_rects, run_packing_packed_ids, List.map_map, List.map_map]
      exact List.map_congr_left fun pl _ => by simp [Function.comp]
    have hunp : (run_packing cw ch items).unpacked_rects
        = collectUnpacked (run_packing cw ch items).packed_ids 0 items := rfl
    rw [heq, hunp]
    exact hmain
  refine ⟨?_, hperm, hnd, hbnd⟩
  have hlen := hperm.length_eq
  rw [List.length_append, List.length_map] at hlen
  exact hlen

/-- C4: every placed rectangle has exactly the width and height of the
item entry it is paired with — dimensions are never swapped, i.e.
rotation is never applied. -/
theorem c4_no_rotation (cw ch : ℚ) (items : List (ItemData × Color)) :
    ∀ e ∈ (run_packing cw ch items).packed_rects,
      e.1.width = e.2.1.1 ∧ e.1.height = e.2.1.2.1 := by
  intro e he
  rw [run_packing_packed_rects, List.mem_map] at he
  obtain ⟨pl, hpl, rfl⟩ := he
  obtain ⟨pc, hg, hw, hh⟩ := engineRun_dims cw ch items pl hpl
  have hgd : items.getD pl.rid dummyEntry = pc := getD_of_get? dummyEntry hg
  constructor
  · show pl.rect.width = (items.getD pl.rid dummyEntry).1.1
    rw [hgd]
    exact hw
  · show pl.rect.height = (items.getD pl.rid dummyEntry).1.2.1
    rw [hgd]
    exact hh

theorem c2_containment_witness :
    ((⟨0, 0, 2, 3⟩ : Rect), ((2 : ℚ), (3 : ℚ), "a"),
        ((0 : ℚ), (0 : ℚ), (0 : ℚ), (0 : ℚ))) ∈ (run_packing 10 10 exOneItem).packed_rects ∧
      (0 ≤ (⟨0, 0, 2, 3⟩ : Rect).x ∧ 0 ≤ (⟨0, 0, 2, 3⟩ : Rect).y ∧
        (⟨0, 0, 2, 3⟩ : Rect).x + (⟨0, 0, 2, 3⟩ : Rect).width ≤ 10 ∧
        (⟨0, 0, 2, 3⟩ : Rect).y + (⟨0, 0, 2, 3⟩ : Rect).height ≤ 10 ∧
        rectRegion ⟨0, 0, 2, 3⟩ ⊆ rectRegion ⟨0, 0, 10, 10⟩) :=
  ⟨by decide,
    c2_containment 10 10 exOneItem
      ((⟨0, 0, 2, 3⟩ : Rect), ((2 : ℚ), (3 : ℚ), "a"),
        ((0 : ℚ), (0 : ℚ), (0 : ℚ), (0 : ℚ))) (by decide)⟩

theorem c3_partition_witness :
    (run_packing 10 10 exOneItem).packed_rects.length
        + (run_packing 10 10 exOneItem).unpacked_rects.length = exOneItem.length ∧
      0 ∈ (run_packing 10 10 exOneItem).packed_ids ∧ 0 < exOneItem.length :=
  ⟨(c3_partition 10 10 exOneItem).1, by decide,
    (c3_partition 10 10 exOneItem).2.2.2 0 (by decide)⟩

theorem c4_no_rotation_witness :
    ((⟨0, 0, 2, 3⟩ : Rect), ((2 : ℚ), (3 : ℚ), "a"),
        ((0 : ℚ), (0 : ℚ), (0 : ℚ), (0 : ℚ))) ∈ (run_packing 10 10 exOneItem).packed_rects ∧
      (⟨0, 0, 2, 3⟩ : Rect).width = (2 : ℚ) ∧ (⟨0, 0, 2, 3⟩ : Rect).height = (3 : ℚ) :=
  ⟨by decide,
    (c4_no_rotation 10 10 exOneItem
      ((⟨0, 0, 2, 3⟩ : Rect), ((2 : ℚ), (3 : ℚ), "a"),
        ((0 : ℚ), (0 : ℚ), (0 : ℚ), (0 : ℚ))) (by decide)).1,
    (c4_no_rotation 10 10 exOneItem
      ((⟨0, 0, 2, 3⟩ : Rect), ((2 : ℚ), (3 : ℚ), "a"),
        ((0 : ℚ), (0 : ℚ), (0 : ℚ), (0 : ℚ))) (by decide)).2⟩

/-- C5 counterexample: with a small item listed before a larger one the
engine (which processes items by area descending) places the larger item
first, and `run_packing` emits `packed_rects` in that placement order —
rids `[1, 0]` — so the placed sequence is not in input order. -/
theorem c5_counterexample :
    (run_packing 10 10 exTwoItems).packed_ids = [1, 0] ∧
      ¬ (run_packing 10 10 exTwoItems).packed_ids.Pairwise (fun i j => i < j) :=
  ⟨by with_unfolding_all decide, by with_unfolding_all decide⟩

/-- C5 (amended): the unpacked sequence preserves the original input
order — it is a subsequence of the input list — while the placed
sequence is emitted in the order the heuristic placed the items, which
need not be the input order. -/
theorem c5_unpacked_input_order (cw ch : ℚ) (items : List (ItemData × Color)) :
    ((run_packing cw ch items).unpacked_rects).Sublist items := by
  rw [run_packing_unpacked_rects]
  exact collectUnpacked_sublist _ items 0

/-- C6: the packing computation is deterministic — identical container
dimensions and identical ordered item lists yield identical results,
placements, ordering and rejections included. -/
theorem c6_deterministic (cw1 ch1 cw2 ch2 : ℚ)
    (items1 items2 : List (ItemData × Color))
    (hw : cw1 = cw2) (hh : ch1 = ch2) (hi : items1 = items2) :
    run_packing cw1 ch1 items1 = run_packing cw2 ch2 items2 := by
  subst hw
  subst hh
  subst hi
  rfl

theorem c6_deterministic_witness :
    (10 : ℚ) = 10 ∧ exTwoItems = exTwoItems ∧
      run_packing 10 10 exTwoItems = run_packing 10 10 exTwoItems :=
  ⟨rfl, rfl, c6_deterministic 10 10 10 10 exTwoItems exTwoItems rfl rfl rfl⟩

/-- C7: when a non-positive container or item dimension reaches the
packing engine, `pack` fails fast with an error identifying the
container or the offending item, and produces no placement result. -/
theorem c7_fail_fast (cw ch : ℚ) (items : List (ItemData × Color))
    (hbad : cw ≤ 0 ∨ ch ≤ 0 ∨ ∃ e ∈ items, e.1.1 ≤ 0 ∨ e.1.2.1 ≤ 0) :
    ∃ err, pack cw ch items = Except.error err ∧ errorIdentifies cw ch items err := by
  by_cases hc : cw ≤ 0 ∨ ch ≤ 0
  · refine ⟨PackError.containerInvalid cw ch, ?_, rfl, rfl, hc⟩
    unfold pack
    rw [if_pos (decide_eq_true hc)]
  · have hcond : decide (cw ≤ 0 ∨ ch ≤ 0) = false := decide_eq_false hc
    rcases hbad with h | h | h
    · exact absurd (Or.inl h) hc
    · exact absurd (Or.inr h) hc
    obtain ⟨e, hmem, hdim⟩ := h
    have hfind : ∃ r, (items.enum.find? fun p => decide (p.2.1.1 ≤ 0 ∨ p.2.1.2.1 ≤ 0))
        = some r := by
      have hex : ∃ x ∈ items.enum,
          (fun p : ℕ × (ItemData × Color) => decide (p.2.1.1 ≤ 0 ∨ p.2.1.2.1 ≤ 0)) x
            = true := by
        obtain ⟨i, hget⟩ := List.mem_iff_getElem?.mp hmem
        exact ⟨(i, e), List.mem_enum_iff_getElem?.mpr hget, decide_eq_true hdim⟩
      exact Option.isSome_iff_exists.mp (List.find?_isSome.mpr hex)
    obtain ⟨r, hr⟩ := hfind
    refine ⟨PackError.itemInvalid r.1 r.2.1, ?_, ?_⟩
    · unfold pack
      rw [if_neg (ne_true_of_eq_false hcond), hr]
    · have hget := enum_mem_get? (List.mem_of_find?_eq_some hr)
      have hpa := List.find?_some hr
      refine ⟨⟨r.2.2, hget⟩, of_decide_eq_true ?_⟩
      exact hpa

theorem c7_fail_fast_witness :
    ((10 : ℚ) ≤ 0 ∨ (10 : ℚ) ≤ 0 ∨ ∃ e ∈ exBadItems, e.1.1 ≤ 0 ∨ e.1.2.1 ≤ 0) ∧
      ∃ err, pack 10 10 exBadItems = Except.error err ∧
        errorIdentifies 10 10 exBadItems err :=
  ⟨by decide, c7_fail_fast 10 10 exBadItems (by decide)⟩

/-- C8 counterexample: with a non-numeric width text `"abc"` and a
numeric height text `"5"`, `_get_container` resets BOTH axes to `10`;
the supplied numeric height is not kept, contrary to the claim that
each axis defaults independently. -/
theorem c8_counterexample :
    pyFloat "abc" = none ∧ pyFloat "5" = some 5 ∧
      (get_container pyFloat (some "C") (some "abc") (some "5")).2 = (10, 10) ∧
      ¬ (get_container pyFloat (some "C") (some "abc") (some "5")).2.2 = 5 :=
  ⟨by with_unfolding_all decide, by with_unfolding_all decide,
    by with_unfolding_all decide, by with_unfolding_all decide⟩

/-- C8 (amended): an absent width or height cell defaults for that axis
alone (container `10`, item `1`) while the other axis keeps its parsed
value; but a present, non-blank cell whose text fails numeric parsing
resets BOTH axes of that reader together (`10, 10` for the container,
`1, 1` for the item); the reader still returns a value — a warning is
printed rather than the operation failing. -/
theorem c8_amended (parse : String → Option ℚ) (s t : String) (v : ℚ)
    (colours : ℕ → Option Color) (row : ℕ) (nameCell : Option String)
    (hs : s.trim ≠ "") (hv : parse s = some v)
    (h10 : parse "10" = some 10) (h1 : parse "1" = some 1)
    (ht : t.trim ≠ "") (htn : parse t = none) :
    (get_container parse nameCell none (some s)).2 = (10, v) ∧
      (get_container parse nameCell (some s) none).2 = (v, 10) ∧
      (get_container parse nameCell (some t) (some s)).2 = (10, 10) ∧
      (get_container parse nameCell (some s) (some t)).2 = (10, 10) ∧
      ((get_item_row parse colours row ⟨nameCell, none, some s⟩).1.1 = 1 ∧
        (get_item_row parse colours row ⟨nameCell, none, some s⟩).1.2.1 = v) ∧
      ((get_item_row parse colours row ⟨nameCell, some s, none⟩).1.1 = v ∧
        (get_item_row parse colours row ⟨nameCell, some s, none⟩).1.2.1 = 1) ∧
      ((get_item_row parse colours row ⟨nameCell, some t, some s⟩).1.1 = 1 ∧
        (get_item_row parse colours row ⟨nameCell, some t, some s⟩).1.2.1 = 1) ∧
      ((get_item_row parse colours row ⟨nameCell, some s, some t⟩).1.1 = 1 ∧
        (get_item_row parse colours row ⟨nameCell, some s, some t⟩).1.2.1 = 1) := by
  refine ⟨?_, ?_, ?_, ?_, ⟨?_, ?_⟩, ⟨?_, ?_⟩, ⟨?_, ?_⟩, ⟨?_, ?_⟩⟩ <;>
    simp [get_container, get_item_row, textOrDefault, hs, hv, h10, h1, ht, htn]

theorem c8_amended_witness :
    ("5".trim ≠ "" ∧ pyFloat "5" = some 5 ∧ pyFloat "10" = some 10 ∧
        pyFloat "1" = some 1 ∧ "abc".trim ≠ "" ∧ pyFloat "abc" = none) ∧
      (get_container pyFloat none none (some "5")).2 = (10, 5) ∧
      (get_container pyFloat none (some "5") none).2 = (5, 10) ∧
      (get_container pyFloat none (some "abc") (some "5")).2 = (10, 10) ∧
      (get_container pyFloat none (some "5") (some "abc")).2 = (10, 10) ∧
      ((get_item_row pyFloat (fun _ => none) 0 ⟨none, none, some "5"⟩).1.1 = 1 ∧
        (get_item_row pyFloat (fun _ => none) 0 ⟨none, none, some "5"⟩).1.2.1 = 5) ∧
      ((get_item_row pyFloat (fun _ => none) 0 ⟨none, some "5", none⟩).1.1 = 5 ∧
        (get_item_row pyFloat (fun _ => none) 0 ⟨none, some "5", none⟩).1.2.1 = 1) ∧
      ((get_item_row pyFloat (fun _ => none) 0 ⟨none, some "abc", some "5"⟩).1.1 = 1 ∧
        (get_item_row pyFloat (fun _ => none) 0 ⟨none, some "abc", some "5"⟩).1.2.1 = 1) ∧
      ((get_item_row pyFloat (fun _ => none) 0 ⟨none, some "5", some "abc"⟩).1.1 = 1 ∧
        (get_item_row pyFloat (fun _ => none) 0 ⟨none, some "5", some "abc"⟩).1.2.1 = 1) :=
  ⟨⟨by with_unfolding_all decide, by with_unfolding_all decide,
      by with_unfolding_all decide, by with_unfolding_all decide,
      by with_unfolding_all decide, by with_unfolding_all decide⟩,
    c8_amended pyFloat "5" "abc" 5 (fun _ => none) 0 none
      (by with_unfolding_all decide) (by with_unfolding_all decide)
      (by with_unfolding_all decide) (by with_unfolding_all decide)
      (by with_unfolding_all decide) (by with_unfolding_all decide)⟩

/-- C9: a load row whose name cell is absent or blank yields an item
labelled `"Load N"`, where `N` is the row's 1-based position in the
table at the time of the run. -/
theorem c9_default_label (parse : String → Option ℚ) (colours : ℕ → Option Color)
    (rows : List CellRow) (i : ℕ) (hi : i < rows.length)
    (hname : (rows.get ⟨i, hi⟩).name = none ∨
      ∃ t, (rows.get ⟨i, hi⟩).name = some t ∧ t.trim = "") :
    ((get_items_for_packing parse colours rows).getD i dummyEntry).1.2.2
      = "Load " ++ toString (i + 1) := by
  have hget : (get_items_for_packing parse colours rows).get? i
      = some (get_item_row parse colours i (rows.get ⟨i, hi⟩)) := by
    unfold get_items_for_packing
    rw [List.get?_eq_getElem?, List.getElem?_map, List.getElem?_enum,
      List.getElem?_eq_getElem hi]
    rfl
  rw [getD_of_get? dummyEntry hget]
  show textOrDefault (rows.get ⟨i, hi⟩).name ("Load " ++ toString (i + 1))
    = "Load " ++ toString (i + 1)
  rcases hname with h | ⟨t, ht, htb⟩
  · rw [h]
    rfl
  · rw [ht]
    show (if t.trim ≠ "" then t else "Load " ++ toString (i + 1))
      = "Load " ++ toString (i + 1)
    rw [if_neg fun hcon => hcon htb]

theorem c9_default_label_witness :
    0 < ([⟨none, some "2", some "3"⟩] : List CellRow).length ∧
      ((get_items_for_packing pyFloat (fun _ => none)
          [⟨none, some "2", some "3"⟩]).getD 0 dummyEntry).1.2.2
        = "Load " ++ toString (0 + 1) :=
  ⟨by decide,
    c9_default_label pyFloat (fun _ => none) [⟨none, some "2", some "3"⟩] 0
      (by decide) (Or.inl rfl)⟩

/-- C10: evaluating the save loop at the failing input — a table whose
second row has no colour cell widget: the stale `color_button` local
from row one leaks, so row two is saved with row one's colour
`(0.1, 0.2, 0.3, 0.4)` rather than the claimed `(0.5, 0.5, 0.5, 0.8)`
default, and when the very first row lacks the widget the save aborts
with a `NameError` and produces no entries at all. -/
theorem c10_save_divergence :
    save_loads [exRowWithButton, exRowNoWidget] =
        Except.ok [⟨"a", "2", "3", (1/10, 1/5, 3/10, 2/5)⟩,
          ⟨"", "1", "4", (1/10, 1/5, 3/10, 2/5)⟩] ∧
      ((1/10 : ℚ), (1/5 : ℚ), (3/10 : ℚ), (2/5 : ℚ))
        ≠ ((1/2 : ℚ), (1/2 : ℚ), (1/2 : ℚ), (4/5 : ℚ)) ∧
      save_loads [exRowNoWidget]
        = Except.error "NameError: name color_button is not defined" :=
  ⟨by with_unfolding_all rfl, by with_unfolding_all decide,
    by with_unfolding_all rfl⟩
